import Mathlib

/-!
Verification of the DILIrank ChEMBL enrichment script (src/DILIrank/fetch.py).

The script resolves drug names to ChEMBL identifiers and fetches structure and
mechanism data. The remote ChEMBL web client is modelled as an oracle `Api`:
each remote call either fails (an exception in the Python client, modelled as
`Except.error ()`) or returns its data. Python `None`-able record fields are
modelled as `Option`; Python string truthiness (`None` and `""` are falsy) is
`pyTruthy`. `max_phase` is modelled as `Option (Option Int)`: `none` is an
absent or `None` field, `some none` a present value on which `int(...)` raises,
`some (some n)` a present value with `int(...) = n`.
-/

/-- `MAX_HITS` constant of fetch.py: maximum hits to inspect for each name. -/
def MAX_HITS : Nat := 5

/-- `DEEP_CHECK` constant of fetch.py: how many top hits to inspect deeply. -/
def DEEP_CHECK : Nat := 3

/-- A partial molecule record as returned by ChEMBL search / filter. -/
structure Candidate where
  pref_name : Option String
  max_phase : Option (Option Int)
  molecule_chembl_id : Option String
deriving DecidableEq

/-- The `molecule_structures` sub-dictionary of a full molecule record. -/
structure MolStructures where
  canonical_smiles : Option String
  standard_inchi_key : Option String
deriving DecidableEq

/-- One entry of `molecule_synonyms`: either a dict (with `synonyms` and/or
`molecule_synonym` keys, possibly absent or `None`) or some other value whose
`str(...)` rendering is stored. -/
inductive Syn where
  | dict (synonyms : Option String) (molecule_synonym : Option String)
  | other (s : String)
deriving DecidableEq

/-- A full molecule record as returned by `molecule_client.get`. -/
structure FullMol where
  pref_name : Option String
  molecule_synonyms : Option (List Syn)
  molecule_type : Option String
  molecule_structures : Option MolStructures
deriving DecidableEq

/-- One mechanism row as returned by `mechanism_client.filter`. -/
structure Mech where
  target_chembl_id : Option String
  target_pref_name : Option String
  target_organism : Option String
  action_type : Option String
  mechanism_of_action : Option String
deriving DecidableEq

/-- The remote ChEMBL client, as an oracle. `Except.error ()` models the call
raising an exception. `getMol` takes an `Option String` because
`choose_best_candidate` may pass a `None` identifier to `molecule_client.get`. -/
structure Api where
  filterPref : String → Except Unit (List Candidate)
  search : String → Except Unit (List Candidate)
  getMol : Option String → Except Unit FullMol
  mechFilter : String → Except Unit (List Mech)

/-- Python `x or d` for a possibly-`None` string `x`: `None` and `""` fall
through to the default. -/
def pyOrStr (o : Option String) (d : String) : String :=
  match o with
  | some s => if s.isEmpty then d else s
  | none => d

/-- Python truthiness of a possibly-`None` string: `None` and `""` are falsy. -/
def pyTruthy (o : Option String) : Bool :=
  match o with
  | some s => !s.isEmpty
  | none => false

/-- Python `s.lower()`: lowercase every character. -/
def pyLower (s : String) : String := ⟨s.data.map Char.toLower⟩

/-- Python `s.strip()`: drop leading and trailing whitespace. -/
def pyStrip (s : String) : String :=
  ⟨((s.data.dropWhile Char.isWhitespace).reverse.dropWhile Char.isWhitespace).reverse⟩

/-- Python `s.lower().strip()`. -/
def normStr (s : String) : String := pyStrip (pyLower s)

/-- Python `a in b` on strings: substring test (the empty string is a
substring of everything). -/
def isSubstr (a b : String) : Bool := decide (a.toList <:+: b.toList)

/-- Python `q.split()[0]` guarded with a default: the first maximal run of
non-whitespace characters (Python raises on an all-whitespace string, for
which this returns `""`; callers in fetch.py only pass non-blank stripped
names, for which the token exists). -/
def firstTok (q : String) : String :=
  ⟨(q.data.dropWhile Char.isWhitespace).takeWhile (fun c => !Char.isWhitespace c)⟩

/-- fetch.py `pref_name_exact`: exact preferred-name match; returns the first
result if any; an exception is swallowed and gives `none`. -/
def pref_name_exact (api : Api) (name : String) : Option Candidate :=
  match api.filterPref name with
  | .ok res => res.head?
  | .error _ => none

/-- fetch.py `limited_text_search`: free-text search keeping at most the first
`MAX_HITS` results; an exception is swallowed and gives `[]`. -/
def limited_text_search (api : Api) (name : String) : List Candidate :=
  match api.search name with
  | .ok res => res.take MAX_HITS
  | .error _ => []

/-- The scoring closure `score` inside fetch.py `choose_best_candidate`. -/
def score (query_name : String) (c : Candidate) : Int :=
  let pref := normStr (pyOrStr c.pref_name "")
  let q := normStr query_name
  let s1 : Int := if pref = q then 200 else 0
  let s2 : Int := if isSubstr q pref || isSubstr pref q then 20 else 0
  let s3 : Int :=
    match c.max_phase with
    | some (some n) => n * 5
    | _ => 0
  s1 + s2 + s3

/-- fetch.py `ranked = sorted(candidates, key=score, reverse=True)`: a stable
descending sort by score (Python `sorted` is a stable sort; stability and
descending sortedness, which determine the result uniquely, are proved below). -/
def rankCandidates (candidates : List Candidate) (query_name : String) : List Candidate :=
  candidates.insertionSort (fun a b => score query_name b ≤ score query_name a)

/-- The string extracted from one synonym entry in fetch.py:
`syn.get('synonyms') or syn.get('molecule_synonym') or ""` for dicts,
`str(syn)` otherwise. -/
def synString (sy : Syn) : String :=
  match sy with
  | .dict synonyms molecule_synonym => pyOrStr synonyms (pyOrStr molecule_synonym "")
  | .other s => s

/-- The `names` set built in the deep-check loop of `choose_best_candidate`:
the normalized preferred name plus every non-empty synonym string, normalized.
Modelled as a list; only membership is ever used. -/
def namesOf (full : FullMol) : List String :=
  normStr (pyOrStr full.pref_name "") ::
    (full.molecule_synonyms.getD []).filterMap
      (fun sy => if (synString sy).isEmpty then none else some (normStr (synString sy)))

/-- Whether one deep-checked candidate is accepted: its record fetch succeeds
and its name set contains the normalized query or the query's first token. -/
def candMatches (api : Api) (query_name : String) (c : Candidate) : Bool :=
  match api.getMol c.molecule_chembl_id with
  | .error _ => false
  | .ok full =>
    let names := namesOf full
    let q := normStr query_name
    names.contains q || names.contains (firstTok q)

/-- The deep-check `for c in ranked[:DEEP_CHECK]` loop of
`choose_best_candidate`: `some idOpt` models the Python `return chembl_id`
(an identifier that may itself be `None`), `none` models falling out of the
loop. A failing `molecule_client.get` is caught and the loop continues. -/
def deepCheckLoop (api : Api) (query_name : String) : List Candidate → Option (Option String)
  | [] => none
  | c :: rest =>
    match api.getMol c.molecule_chembl_id with
    | .error _ => deepCheckLoop api query_name rest
    | .ok full =>
      let names := namesOf full
      let q := normStr query_name
      if names.contains q || names.contains (firstTok q) then some c.molecule_chembl_id
      else deepCheckLoop api query_name rest

/-- fetch.py `choose_best_candidate`: `none` for an empty candidate list,
otherwise rank, deep-check the top `DEEP_CHECK`, and fall back to the
top-ranked candidate's identifier. -/
def choose_best_candidate (api : Api) (candidates : List Candidate)
    (query_name : String) : Option String :=
  match rankCandidates candidates query_name with
  | [] => none
  | top :: _ =>
    match deepCheckLoop api query_name ((rankCandidates candidates query_name).take DEEP_CHECK) with
    | some idOpt => idOpt
    | none => top.molecule_chembl_id

/-- fetch.py `fetch_molecule_data`: returns `(smiles, inchi_key, mol_type)`;
a failing fetch yields `(none, none, none)`; a missing `molecule_structures`
dictionary falls back to `{}`. -/
def fetch_molecule_data (api : Api) (chembl_id : String) :
    Option String × Option String × Option String :=
  match api.getMol (some chembl_id) with
  | .error _ => (none, none, none)
  | .ok mol =>
    let structs := mol.molecule_structures.getD ⟨none, none⟩
    (structs.canonical_smiles, structs.standard_inchi_key, mol.molecule_type)

/-- One output row of fetch.py `fetch_targets` (before main adds `query_name`). -/
structure TargetRow where
  molecule_chembl_id : String
  target_chembl_id : Option String
  target_pref_name : Option String
  target_organism : Option String
  action_type : Option String
  mechanism_of_action : Option String
deriving DecidableEq

/-- fetch.py `fetch_targets`: one row per mechanism; a failing filter call is
swallowed and yields `[]`. -/
def fetch_targets (api : Api) (chembl_id : String) : List TargetRow :=
  match api.mechFilter chembl_id with
  | .error _ => []
  | .ok mechs => mechs.map (fun m =>
      { molecule_chembl_id := chembl_id
        target_chembl_id := m.target_chembl_id
        target_pref_name := m.target_pref_name
        target_organism := m.target_organism
        action_type := m.action_type
        mechanism_of_action := m.mechanism_of_action })

/-- One row of the metadata output (`meta_records`). -/
structure MetaRecord where
  query_name : String
  chembl_id : Option String
  smiles : Option String
  inchi_key : Option String
  molecule_type : Option String
  status : String
deriving DecidableEq

/-- One row of the targets output (`target_records`): a `fetch_targets` row
with the `query_name` main adds to it. -/
structure TargetRecord where
  row : TargetRow
  query_name : String
deriving DecidableEq

/-- The per-name candidate acquisition in main: exact preferred-name match
first; only when it yields nothing is the text search consulted. -/
def getCandidates (api : Api) (name : String) : List Candidate :=
  match pref_name_exact api name with
  | some candidate => [candidate]
  | none => limited_text_search api name

/-- The body of main's loop for one non-blank stripped name: the metadata
record appended for it and the target records appended for it. -/
def processName (api : Api) (name : String) : MetaRecord × List TargetRecord :=
  let candidates := getCandidates api name
  if candidates.isEmpty then
    ({ query_name := name, chembl_id := none, smiles := none, inchi_key := none,
       molecule_type := none, status := "no_hit" }, [])
  else
    let chembl_id := choose_best_candidate api candidates name
    if !pyTruthy chembl_id then
      ({ query_name := name, chembl_id := none, smiles := none, inchi_key := none,
         molecule_type := none, status := "no_candidate" }, [])
    else
      let cid := chembl_id.getD ""
      let fetched := fetch_molecule_data api cid
      let smiles := fetched.1
      let inchi_key := fetched.2.1
      let mol_type := fetched.2.2
      let is_small := pyTruthy mol_type
        && (pyLower (pyOrStr mol_type "") == "small molecule") && pyTruthy smiles
      let status := if is_small then "ok" else "non_small_or_no_smiles"
      ({ query_name := name, chembl_id := some cid, smiles := smiles,
         inchi_key := inchi_key, molecule_type := mol_type, status := status },
       if is_small then (fetch_targets api cid).map (fun t => ⟨t, name⟩) else [])

/-- The identifier string main works with after a truthy
`choose_best_candidate` result (abbreviation for stating lemmas; `getD ""` is
only ever read under `pyTruthy`, which rules the default out). -/
def chosenId (api : Api) (name : String) : String :=
  (choose_best_candidate api (getCandidates api name) name).getD ""

/-- Main's `is_small` flag for one name:
`mol_type and mol_type.lower() == "small molecule" and smiles` as a Bool
(abbreviation for stating lemmas about `processName`). -/
def isSmallB (api : Api) (name : String) : Bool :=
  pyTruthy (fetch_molecule_data api (chosenId api name)).2.2
    && (pyLower (pyOrStr (fetch_molecule_data api (chosenId api name)).2.2 "")
        == "small molecule")
    && pyTruthy (fetch_molecule_data api (chosenId api name)).1

/-- Main's loop over the deduplicated names: each name is `str(...).strip()`d,
blanks are skipped, and the two accumulated output tables are returned. -/
def runNames (api : Api) : List String → List MetaRecord × List TargetRecord
  | [] => ([], [])
  | n :: rest =>
    let name := pyStrip n
    if name.isEmpty then runNames api rest
    else
      let pr := processName api name
      let tail := runNames api rest
      (pr.1 :: tail.1, pr.2 ++ tail.2)

/-- The parsed input CSV: whether a `Name` column exists, and that column's
cells (`none` models a NaN cell dropped by `dropna`). -/
structure InputCSV where
  hasNameCol : Bool
  nameColumn : List (Option String)

/-- The worker behind pandas `unique()`: keep each value's first occurrence,
in encounter order; `seen` accumulates the values already emitted. -/
def uniqueAux : List String → List String → List String
  | [], _ => []
  | x :: xs, seen =>
    if seen.contains x then uniqueAux xs seen else x :: uniqueAux xs (x :: seen)

/-- pandas `Series.unique()` on a list of strings: order-preserving
first-occurrence deduplication. -/
def uniqueFirst (l : List String) : List String := uniqueAux l []

/-- `df["Name"].dropna().unique().tolist()`: drop NaN cells, then deduplicate
keeping first occurrences in order. -/
def inputNames (inp : InputCSV) : List String :=
  uniqueFirst (inp.nameColumn.filterMap id)

/-- fetch.py main: raises if the `Name` column is missing (before any name is
processed), otherwise processes every deduplicated name and returns the two
output tables. -/
def runMain (api : Api) (inp : InputCSV) :
    Except String (List MetaRecord × List TargetRecord) :=
  if inp.hasNameCol then .ok (runNames api (inputNames inp))
  else .error "Input CSV must contain a Name column."

/-! ### Spec-side definitions for refinement comparison -/

/-- The candidate score as the spec words it: 200 if the normalized preferred
name equals the normalized query, plus 20 if one of the two normalized strings
contains the other, plus 5 times `max_phase` read as an integer (0 if absent
or non-numeric). To be compared with `score`. -/
def scoreSpec (query_name : String) (c : Candidate) : Int :=
  (if normStr (pyOrStr c.pref_name "") = normStr query_name then 200 else 0) +
  (if isSubstr (normStr query_name) (normStr (pyOrStr c.pref_name ""))
      || isSubstr (normStr (pyOrStr c.pref_name "")) (normStr query_name) then 20 else 0) +
  5 * (match c.max_phase with | some (some n) => n | _ => 0)

/-- Deep verification as the spec words it: among the top `DEEP_CHECK` ranked
candidates, return the identifier of the first one whose fetched name set
matches the query (`candMatches`); if none matches (including when every
fetch fails), return the top-ranked candidate's identifier unconditionally.
To be compared with `choose_best_candidate`. -/
def deepVerifySpec (api : Api) (query_name : String) (ranked : List Candidate) : Option String :=
  match (ranked.take DEEP_CHECK).find? (candMatches api query_name) with
  | some c => c.molecule_chembl_id
  | none =>
    match ranked with
    | [] => none
    | top :: _ => top.molecule_chembl_id

/-! ### Concrete oracles and records used to witness the theorems -/

/-- An oracle on which every remote call raises. -/
def trivApi : Api where
  filterPref := fun _ => .error ()
  search := fun _ => .error ()
  getMol := fun _ => .error ()
  mechFilter := fun _ => .error ()

/-- A sample search candidate. -/
def aspCand : Candidate :=
  { pref_name := some "Aspirin"
    max_phase := some (some 4)
    molecule_chembl_id := some "CHEMBL25" }

/-- A second candidate with the same preferred name and phase (same score). -/
def aspCand2 : Candidate :=
  { pref_name := some "Aspirin"
    max_phase := some (some 4)
    molecule_chembl_id := some "CHEMBL2296" }

/-- A sample full molecule record: a small molecule with a SMILES string. -/
def aspFull : FullMol :=
  { pref_name := some "Aspirin"
    molecule_synonyms := none
    molecule_type := some "Small molecule"
    molecule_structures := some { canonical_smiles := some "CC(=O)Oc1ccccc1C(=O)O"
                                  standard_inchi_key := some "BSYNRYMUTXBXSQ-UHFFFAOYSA-N" } }

/-- A sample mechanism row. -/
def aspMech : Mech :=
  { target_chembl_id := some "CHEMBL204"
    target_pref_name := some "Cyclooxygenase-1"
    target_organism := some "Homo sapiens"
    action_type := some "INHIBITOR"
    mechanism_of_action := some "Cyclooxygenase inhibitor" }

/-- An oracle where the name Aspirin resolves fully: exact match, full record,
one mechanism row. -/
def okApi : Api where
  filterPref := fun n => if n = "Aspirin" then .ok [aspCand] else .error ()
  search := fun _ => .error ()
  getMol := fun i => if i = some "CHEMBL25" then .ok aspFull else .error ()
  mechFilter := fun i => if i = "CHEMBL25" then .ok [aspMech] else .error ()

/-- A full record whose SMILES is present but is the empty string. -/
def emptySmilesFull : FullMol :=
  { pref_name := some "Aspirin"
    molecule_synonyms := none
    molecule_type := some "Small molecule"
    molecule_structures := some { canonical_smiles := some ""
                                  standard_inchi_key := some "BSYNRYMUTXBXSQ-UHFFFAOYSA-N" } }

/-- Like `okApi`, but the fetched record carries an empty SMILES string. -/
def emptySmilesApi : Api where
  filterPref := fun n => if n = "Aspirin" then .ok [aspCand] else .error ()
  search := fun _ => .error ()
  getMol := fun i => if i = some "CHEMBL25" then .ok emptySmilesFull else .error ()
  mechFilter := fun _ => .error ()

/-- An oracle whose text search yields six candidates (one more than `MAX_HITS`). -/
def manyApi : Api :=
  { trivApi with search := fun _ => .ok [aspCand, aspCand2, aspCand, aspCand2, aspCand, aspCand2] }

/-! ### Claim theorems -/

/-- C7: for every query name, the fallback free-text search returns at most the
first `MAX_HITS` (5) results of the remote search, and a failure of the search
call is swallowed rather than propagated, yielding no result for that call. -/
theorem limited_text_search_bounded (api : Api) (name : String) :
    (limited_text_search api name).length ≤ MAX_HITS
    ∧ (api.search name = .error () → limited_text_search api name = [])
    ∧ (∀ l, api.search name = .ok l → limited_text_search api name = l.take MAX_HITS) := by
  refine ⟨?_, ?_, ?_⟩
  · unfold limited_text_search
    cases h : api.search name with
    | error e => simp
    | ok l => simp [List.length_take]
  · intro h; simp [limited_text_search, h]
  · intro l h; simp [limited_text_search, h]

/-- Witness for C7: a six-result search is cut to five, and a failing search
yields the empty candidate list. -/
theorem limited_text_search_bounded_witness :
    limited_text_search manyApi "orlistat" = [aspCand, aspCand2, aspCand, aspCand2, aspCand]
    ∧ limited_text_search trivApi "orlistat" = [] :=
  ⟨((limited_text_search_bounded manyApi "orlistat").2.2
      [aspCand, aspCand2, aspCand, aspCand2, aspCand, aspCand2] rfl).trans (by decide),
   (limited_text_search_bounded trivApi "orlistat").2.1 rfl⟩

/-- C10: a candidate whose preferred name is missing, `None`, or normalizes to
the empty string still receives the +20 containment bonus against any query
that does not normalize to the empty string (the empty string is a substring
of every string), so it scores 20 plus 5 times its integer `max_phase`. -/
theorem score_of_empty_pref_name (c : Candidate) (query_name : String)
    (hp : normStr (pyOrStr c.pref_name "") = "")
    (hq : normStr query_name ≠ "") :
    score query_name c
      = 20 + 5 * (match c.max_phase with | some (some n) => n | _ => 0) := by
  have hql : (normStr query_name).toList ≠ [] := by
    intro h
    exact hq (by cases hnq : normStr query_name with
      | mk l => simpa [String.toList, hnq] using congrArg String.mk h)
  simp only [score, hp]
  rw [if_neg (fun h => hq h.symm)]
  have h2 : isSubstr (normStr query_name) "" = false := by
    simp only [isSubstr, decide_eq_false_iff_not]
    intro h
    rw [show ("".toList : List Char) = [] from rfl] at h
    exact hql (List.infix_nil.mp h)
  have h3 : isSubstr "" (normStr query_name) = true := by
    simp [isSubstr]
  simp only [h2, h3, Bool.false_or, if_true]
  rcases h : c.max_phase with _ | (_ | n) <;> simp [h, Int.mul_comm]

/-- Witness for C10: a candidate with a `None` preferred name and phase 3
scores 35 against the query aspirin. -/
theorem score_of_empty_pref_name_witness :
    score "aspirin"
      { pref_name := none, max_phase := some (some 3), molecule_chembl_id := none } = 35 :=
  (score_of_empty_pref_name
    { pref_name := none, max_phase := some (some 3), molecule_chembl_id := none }
    "aspirin" (by decide) (by decide)).trans (by decide)

/-- C9: the run is deterministic in its inputs: against remote oracles that
return the same responses on every call, the same input produces identical
metadata and target tables. -/
theorem runMain_deterministic (api1 api2 : Api) (inp : InputCSV)
    (h1 : ∀ n, api1.filterPref n = api2.filterPref n)
    (h2 : ∀ n, api1.search n = api2.search n)
    (h3 : ∀ i, api1.getMol i = api2.getMol i)
    (h4 : ∀ i, api1.mechFilter i = api2.mechFilter i) :
    runMain api1 inp = runMain api2 inp := by
  obtain ⟨f1, s1, g1, m1⟩ := api1
  obtain ⟨f2, s2, g2, m2⟩ := api2
  obtain rfl : f1 = f2 := funext h1
  obtain rfl : s1 = s2 := funext h2
  obtain rfl : g1 = g2 := funext h3
  obtain rfl : m1 = m2 := funext h4
  rfl

/-- Witness for C9: two runs of the trivially failing oracle on a one-name
input coincide. -/
theorem runMain_deterministic_witness :
    runMain trivApi { hasNameCol := true, nameColumn := [some "Aspirin"] }
      = runMain trivApi { hasNameCol := true, nameColumn := [some "Aspirin"] } :=
  runMain_deterministic trivApi trivApi _
    (fun _ => rfl) (fun _ => rfl) (fun _ => rfl) (fun _ => rfl)

/-- C6: the exact preferred-name lookup swallows failures into `none`, returns
at most the first record of the filter result, and when it yields a record the
candidate list is exactly that record, whatever the text search would return
(the search is not consulted). -/
theorem exact_match_short_circuit (api : Api) (name : String) :
    (api.filterPref name = .error () → pref_name_exact api name = none)
    ∧ (∀ l, api.filterPref name = .ok l → pref_name_exact api name = l.head?)
    ∧ (∀ c, pref_name_exact api name = some c →
        ∀ sf, getCandidates { api with search := sf } name = [c]) := by
  refine ⟨?_, ?_, ?_⟩
  · intro h; simp [pref_name_exact, h]
  · intro l h; simp [pref_name_exact, h]
  · intro c h sf
    have hx : pref_name_exact { api with search := sf } name = some c := by
      simpa [pref_name_exact] using h
    simp [getCandidates, hx]

/-- Witness for C6: with an exact hit for Aspirin, the candidate list is that
hit alone even under a search oracle that would return a different candidate. -/
theorem exact_match_short_circuit_witness :
    getCandidates { okApi with search := fun _ => .ok [aspCand2] } "Aspirin" = [aspCand] :=
  (exact_match_short_circuit okApi "Aspirin").2.2 aspCand (by decide)
    (fun _ => .ok [aspCand2])

/-- C4: the ranking score is exactly the spec's formula (200 for a normalized
preferred-name match, +20 for one-way containment, +5 per `max_phase` point,
0 for an absent or non-numeric phase), and the candidates are sorted by this
score descending with equal scores keeping their encounter order. -/
theorem ranking_score_and_stability (query_name : String) (candidates : List Candidate) :
    (∀ c, score query_name c = scoreSpec query_name c)
    ∧ List.Pairwise (fun a b => score query_name b ≤ score query_name a)
        (rankCandidates candidates query_name)
    ∧ (rankCandidates candidates query_name).Perm candidates
    ∧ (∀ a b, score query_name a = score query_name b →
        List.Sublist [a, b] candidates →
        List.Sublist [a, b] (rankCandidates candidates query_name)) := by
  refine ⟨?_, ?_, ?_, ?_⟩
  · intro c
    simp only [score, scoreSpec]
    rcases h : c.max_phase with _ | (_ | n) <;> simp [h, Int.mul_comm]
  · haveI : IsTrans Candidate (fun a b => score query_name b ≤ score query_name a) :=
      ⟨fun _ _ _ hab hbc => le_trans hbc hab⟩
    haveI : IsTotal Candidate (fun a b => score query_name b ≤ score query_name a) :=
      ⟨fun _ _ => le_total _ _⟩
    exact List.sorted_insertionSort (fun a b => score query_name b ≤ score query_name a)
      candidates
  · exact List.perm_insertionSort (fun a b => score query_name b ≤ score query_name a)
      candidates
  · intro a b hab hsub
    exact List.pair_sublist_insertionSort (le_of_eq hab.symm) hsub

/-- Witness for C4: two equally scoring Aspirin candidates keep their encounter
order in the ranking, and the score of the first matches the spec formula. -/
theorem ranking_score_and_stability_witness :
    List.Sublist [aspCand, aspCand2] (rankCandidates [aspCand, aspCand2] "Aspirin")
    ∧ score "Aspirin" aspCand = scoreSpec "Aspirin" aspCand :=
  ⟨(ranking_score_and_stability "Aspirin" [aspCand, aspCand2]).2.2.2 aspCand aspCand2
      (by decide) (by decide),
   (ranking_score_and_stability "Aspirin" [aspCand, aspCand2]).1 aspCand⟩

/-- The deep-check loop returns the identifier of the first candidate that
`candMatches` accepts, and `none` when no listed candidate is accepted. -/
theorem deepCheckLoop_eq_find (api : Api) (query_name : String) (l : List Candidate) :
    deepCheckLoop api query_name l
      = (l.find? (candMatches api query_name)).map Candidate.molecule_chembl_id := by
  induction l with
  | nil => rfl
  | cons c rest ih =>
    cases h : api.getMol c.molecule_chembl_id with
    | error e =>
      have hm : candMatches api query_name c = false := by simp [candMatches, h]
      rw [List.find?_cons_of_neg _ (by simp [hm])]
      simp [deepCheckLoop, h, ih]
    | ok full =>
      have hcand : candMatches api query_name c
          = ((namesOf full).contains (normStr query_name)
             || (namesOf full).contains (firstTok (normStr query_name))) := by
        simp [candMatches, h]
      have hloop : deepCheckLoop api query_name (c :: rest)
          = if ((namesOf full).contains (normStr query_name)
                || (namesOf full).contains (firstTok (normStr query_name))) = true
            then some c.molecule_chembl_id else deepCheckLoop api query_name rest := by
        simp [deepCheckLoop, h]
      cases hb : ((namesOf full).contains (normStr query_name)
          || (namesOf full).contains (firstTok (normStr query_name))) with
      | true =>
        rw [List.find?_cons_of_pos _ (hcand.trans hb)]
        rw [hloop, if_pos hb]
        rfl
      | false =>
        have hm : candMatches api query_name c = false := hcand.trans hb
        rw [List.find?_cons_of_neg _ (by simp [hm])]
        rw [hloop, if_neg (by rw [hb]; exact Bool.false_ne_true)]
        exact ih

/-- C5: `choose_best_candidate` implements the spec's deep verification: among
the top `DEEP_CHECK` ranked candidates it returns the identifier of the first
whose fetched name set contains the normalized query or its first token, and
when none is accepted (including when every fetch fails) it returns the
top-ranked candidate's identifier unconditionally (`none` on no candidates). -/
theorem choose_best_candidate_deep_verify (api : Api) (candidates : List Candidate)
    (query_name : String) :
    choose_best_candidate api candidates query_name
      = deepVerifySpec api query_name (rankCandidates candidates query_name) := by
  unfold choose_best_candidate deepVerifySpec
  cases hr : rankCandidates candidates query_name with
  | nil => simp
  | cons top rest =>
    rw [deepCheckLoop_eq_find]
    cases hf : ((top :: rest).take DEEP_CHECK).find? (candMatches api query_name) with
    | none => simp [hf]
    | some c => simp [hf]

/-! ### Structural lemmas about one loop iteration -/

/-- A string is non-empty exactly when `isEmpty` is `false`. -/
theorem str_isEmpty_false (s : String) : s.isEmpty = false ↔ s ≠ "" := by
  constructor
  · intro h he
    subst he
    exact absurd h (by decide)
  · intro h
    cases he : s.isEmpty
    · rfl
    · exact absurd ((String.isEmpty_iff s).mp he) h

/-- Python truthiness of an optional string, spelled out. -/
theorem pyTruthy_iff (o : Option String) :
    pyTruthy o = true ↔ ∃ s, o = some s ∧ s ≠ "" := by
  cases o with
  | none => simp [pyTruthy]
  | some s => simp [pyTruthy, str_isEmpty_false]

/-- With no candidates, the loop body records a `no_hit` row and no targets. -/
theorem processName_no_hit (api : Api) (name : String)
    (hc : (getCandidates api name).isEmpty = true) :
    processName api name
      = ({ query_name := name, chembl_id := none, smiles := none, inchi_key := none,
           molecule_type := none, status := "no_hit" }, []) := by
  simp [processName, hc]

/-- With candidates but no usable identifier, the loop body records a
`no_candidate` row and no targets. -/
theorem processName_no_candidate (api : Api) (name : String)
    (hc : (getCandidates api name).isEmpty = false)
    (ht : pyTruthy (choose_best_candidate api (getCandidates api name) name) = false) :
    processName api name
      = ({ query_name := name, chembl_id := none, smiles := none, inchi_key := none,
           molecule_type := none, status := "no_candidate" }, []) := by
  simp [processName, hc, ht]

/-- With a usable identifier, the loop body records the fetched fields and a
status decided by the `is_small` check. -/
theorem processName_resolved_fst (api : Api) (name : String)
    (hc : (getCandidates api name).isEmpty = false)
    (ht : pyTruthy (choose_best_candidate api (getCandidates api name) name) = true) :
    (processName api name).1
      = { query_name := name
          chembl_id := some (chosenId api name)
          smiles := (fetch_molecule_data api (chosenId api name)).1
          inchi_key := (fetch_molecule_data api (chosenId api name)).2.1
          molecule_type := (fetch_molecule_data api (chosenId api name)).2.2
          status := if isSmallB api name then "ok" else "non_small_or_no_smiles" } := by
  simp [processName, hc, ht, chosenId, isSmallB]

/-- With a usable identifier, targets are appended exactly when the `is_small`
check holds, each carrying the query name. -/
theorem processName_resolved_snd (api : Api) (name : String)
    (hc : (getCandidates api name).isEmpty = false)
    (ht : pyTruthy (choose_best_candidate api (getCandidates api name) name) = true) :
    (processName api name).2
      = if isSmallB api name
        then (fetch_targets api (chosenId api name)).map (fun t => ⟨t, name⟩)
        else [] := by
  simp [processName, hc, ht, chosenId, isSmallB]

/-- The metadata row of one iteration always carries the processed name. -/
theorem processName_query_name (api : Api) (name : String) :
    (processName api name).1.query_name = name := by
  cases hc : (getCandidates api name).isEmpty with
  | true => rw [processName_no_hit api name hc]
  | false =>
    cases ht : pyTruthy (choose_best_candidate api (getCandidates api name) name) with
    | false => rw [processName_no_candidate api name hc ht]
    | true => rw [processName_resolved_fst api name hc ht]

/-- The metadata row of one iteration has one of the four statuses. -/
theorem processName_status_mem (api : Api) (name : String) :
    (processName api name).1.status = "ok" ∨ (processName api name).1.status = "no_hit"
    ∨ (processName api name).1.status = "no_candidate"
    ∨ (processName api name).1.status = "non_small_or_no_smiles" := by
  cases hc : (getCandidates api name).isEmpty with
  | true => rw [processName_no_hit api name hc]; exact Or.inr (Or.inl rfl)
  | false =>
    cases ht : pyTruthy (choose_best_candidate api (getCandidates api name) name) with
    | false =>
      rw [processName_no_candidate api name hc ht]
      exact Or.inr (Or.inr (Or.inl rfl))
    | true =>
      rw [processName_resolved_fst api name hc ht]
      cases hs : isSmallB api name with
      | true => left; simp
      | false => right; right; right; simp

/-- A target appended by one iteration forces that iteration's status to be
`ok` and carries the iteration's name. -/
theorem processName_target_mem (api : Api) (name : String) (t : TargetRecord)
    (hmem : t ∈ (processName api name).2) :
    (processName api name).1.status = "ok" ∧ t.query_name = name := by
  cases hc : (getCandidates api name).isEmpty with
  | true => rw [processName_no_hit api name hc] at hmem; cases hmem
  | false =>
    cases ht : pyTruthy (choose_best_candidate api (getCandidates api name) name) with
    | false => rw [processName_no_candidate api name hc ht] at hmem; cases hmem
    | true =>
      rw [processName_resolved_snd api name hc ht] at hmem
      cases hs : isSmallB api name with
      | false => rw [hs] at hmem; cases hmem
      | true =>
        rw [hs] at hmem
        rw [if_pos rfl] at hmem
        obtain ⟨row, -, rfl⟩ := List.mem_map.mp hmem
        refine ⟨?_, rfl⟩
        rw [processName_resolved_fst api name hc ht]
        simp [hs]

/-- Deduplication yields a sublist of the input (order preserved). -/
theorem uniqueAux_sublist (l : List String) :
    ∀ seen, List.Sublist (uniqueAux l seen) l := by
  induction l with
  | nil => intro seen; simp [uniqueAux]
  | cons x xs ih =>
    intro seen
    cases h : seen.contains x with
    | true =>
      rw [uniqueAux, if_pos h]
      exact (ih seen).cons x
    | false =>
      rw [uniqueAux, if_neg (by rw [h]; exact Bool.false_ne_true)]
      exact (ih (x :: seen)).cons₂ x

/-- Membership in the deduplicated list: present in the input and not yet seen. -/
theorem mem_uniqueAux (y : String) (l : List String) :
    ∀ seen, y ∈ uniqueAux l seen ↔ y ∈ l ∧ y ∉ seen := by
  induction l with
  | nil => intro seen; simp [uniqueAux]
  | cons x xs ih =>
    intro seen
    cases h : seen.contains x with
    | true =>
      have hx : x ∈ seen := by simpa using h
      rw [uniqueAux, if_pos h, ih seen]
      constructor
      · rintro ⟨h1, h2⟩
        exact ⟨List.mem_cons_of_mem x h1, h2⟩
      · rintro ⟨h1, h2⟩
        rcases List.mem_cons.mp h1 with rfl | h1
        · exact absurd hx h2
        · exact ⟨h1, h2⟩
    | false =>
      have hx : x ∉ seen := by simpa using h
      rw [uniqueAux, if_neg (by rw [h]; exact Bool.false_ne_true)]
      rw [List.mem_cons, ih (x :: seen)]
      constructor
      · rintro (rfl | ⟨h1, h2⟩)
        · exact ⟨List.mem_cons_self y xs, hx⟩
        · rw [List.mem_cons, not_or] at h2
          exact ⟨List.mem_cons_of_mem x h1, h2.2⟩
      · rintro ⟨h1, h2⟩
        rcases List.mem_cons.mp h1 with rfl | h1
        · exact Or.inl rfl
        · by_cases hyx : y = x
          · exact Or.inl hyx
          · refine Or.inr ⟨h1, ?_⟩
            rw [List.mem_cons, not_or]
            exact ⟨hyx, h2⟩

/-- Deduplication produces no duplicates. -/
theorem uniqueAux_nodup (l : List String) : ∀ seen, (uniqueAux l seen).Nodup := by
  induction l with
  | nil => intro seen; simp [uniqueAux]
  | cons x xs ih =>
    intro seen
    cases h : seen.contains x with
    | true =>
      rw [uniqueAux, if_pos h]
      exact ih seen
    | false =>
      rw [uniqueAux, if_neg (by rw [h]; exact Bool.false_ne_true)]
      refine List.nodup_cons.mpr ⟨?_, ih (x :: seen)⟩
      intro hmem
      exact ((mem_uniqueAux x xs (x :: seen)).mp hmem).2 (List.mem_cons_self x seen)

/-- Per iteration order, the metadata rows carry exactly the stripped,
non-blank names, one each. -/
theorem runNames_map_query (api : Api) (names : List String) :
    (runNames api names).1.map MetaRecord.query_name
      = (names.map pyStrip).filter (fun s => !s.isEmpty) := by
  induction names with
  | nil => rfl
  | cons n rest ih =>
    cases hb : (pyStrip n).isEmpty with
    | true => simp [runNames, hb, ih]
    | false => simp [runNames, hb, ih, processName_query_name]

/-- Every produced metadata row has one of the four statuses. -/
theorem runNames_status_mem (api : Api) (names : List String) :
    ∀ m ∈ (runNames api names).1,
      m.status = "ok" ∨ m.status = "no_hit" ∨ m.status = "no_candidate"
        ∨ m.status = "non_small_or_no_smiles" := by
  induction names with
  | nil => simp [runNames]
  | cons n rest ih =>
    intro m hm
    cases hb : (pyStrip n).isEmpty with
    | true =>
      rw [runNames] at hm
      rw [if_pos hb] at hm
      exact ih m hm
    | false =>
      rw [runNames] at hm
      rw [if_neg (by rw [hb]; exact Bool.false_ne_true)] at hm
      rcases List.mem_cons.mp hm with rfl | hm
      · exact processName_status_mem api (pyStrip n)
      · exact ih m hm

/-- C1: for every deduplicated input name, exactly one metadata row is
appended, in order, with one of the four statuses; blank names are skipped
silently; the input names are deduplicated order-preservingly (a nodup
sublist of the raw column with the same members) before processing. -/
theorem meta_rows_and_statuses (api : Api) (inp : InputCSV) :
    ((runNames api (inputNames inp)).1.map MetaRecord.query_name
        = ((inputNames inp).map pyStrip).filter (fun s => !s.isEmpty))
    ∧ (∀ m ∈ (runNames api (inputNames inp)).1,
        m.status = "ok" ∨ m.status = "no_hit" ∨ m.status = "no_candidate"
          ∨ m.status = "non_small_or_no_smiles")
    ∧ List.Sublist (inputNames inp) (inp.nameColumn.filterMap id)
    ∧ (inputNames inp).Nodup
    ∧ (∀ n, n ∈ inputNames inp ↔ n ∈ inp.nameColumn.filterMap id) := by
  refine ⟨runNames_map_query api (inputNames inp),
          runNames_status_mem api (inputNames inp),
          uniqueAux_sublist _ [],
          uniqueAux_nodup _ [],
          fun n => ?_⟩
  rw [inputNames, uniqueFirst, mem_uniqueAux]
  simp

/-- Witness for C1: on a column with a NaN and a duplicate, the run emits one
row, for Aspirin, and its status (`no_hit` under the failing oracle) is among
the four. -/
theorem meta_rows_and_statuses_witness :
    ({ query_name := "Aspirin", chembl_id := none, smiles := none, inchi_key := none,
       molecule_type := none, status := "no_hit" } : MetaRecord).status = "ok"
    ∨ ({ query_name := "Aspirin", chembl_id := none, smiles := none, inchi_key := none,
         molecule_type := none, status := "no_hit" } : MetaRecord).status = "no_hit"
    ∨ ({ query_name := "Aspirin", chembl_id := none, smiles := none, inchi_key := none,
         molecule_type := none, status := "no_hit" } : MetaRecord).status = "no_candidate"
    ∨ ({ query_name := "Aspirin", chembl_id := none, smiles := none, inchi_key := none,
         molecule_type := none, status := "no_hit" } : MetaRecord).status
        = "non_small_or_no_smiles" :=
  (meta_rows_and_statuses trivApi
      { hasNameCol := true, nameColumn := [some "Aspirin", none, some "Aspirin"] }).2.1
    _ (by decide)

/-- C2: a target row is only ever appended for a query name whose metadata row
in the same run has status `ok`. -/
theorem targets_only_for_ok (api : Api) (names : List String) (t : TargetRecord)
    (ht : t ∈ (runNames api names).2) :
    ∃ m ∈ (runNames api names).1, m.query_name = t.query_name ∧ m.status = "ok" := by
  induction names with
  | nil => simp [runNames] at ht
  | cons n rest ih =>
    cases hb : (pyStrip n).isEmpty with
    | true =>
      rw [runNames] at ht
      rw [if_pos hb] at ht
      obtain ⟨m, hm, hq, hs⟩ := ih ht
      rw [runNames]
      rw [if_pos hb]
      exact ⟨m, hm, hq, hs⟩
    | false =>
      rw [runNames] at ht
      rw [if_neg (by rw [hb]; exact Bool.false_ne_true)] at ht
      rw [runNames]
      rw [if_neg (by rw [hb]; exact Bool.false_ne_true)]
      rcases List.mem_append.mp ht with h1 | h2
      · obtain ⟨hok, hqn⟩ := processName_target_mem api (pyStrip n) t h1
        exact ⟨(processName api (pyStrip n)).1, List.mem_cons_self _ _,
          by rw [processName_query_name, hqn], hok⟩
      · obtain ⟨m, hm, hq, hs⟩ := ih h2
        exact ⟨m, List.mem_cons_of_mem _ hm, hq, hs⟩

/-- Witness for C2: the target row produced for Aspirin under the resolving
oracle is matched by an `ok` metadata row for the same query name. -/
theorem targets_only_for_ok_witness :
    ∃ m ∈ (runNames okApi ["Aspirin"]).1,
      m.query_name = (⟨{ molecule_chembl_id := "CHEMBL25"
                         target_chembl_id := some "CHEMBL204"
                         target_pref_name := some "Cyclooxygenase-1"
                         target_organism := some "Homo sapiens"
                         action_type := some "INHIBITOR"
                         mechanism_of_action := some "Cyclooxygenase inhibitor" },
                       "Aspirin"⟩ : TargetRecord).query_name
        ∧ m.status = "ok" :=
  targets_only_for_ok okApi ["Aspirin"] _ (by decide)

/-- The `is_small` check spelled out: the fetched molecule type lowercases to
exactly small molecule (which forces it to be present and non-empty), and the
fetched SMILES is non-null and non-empty. -/
theorem isSmallB_iff (api : Api) (name : String) :
    isSmallB api name = true
      ↔ (pyLower (pyOrStr (fetch_molecule_data api (chosenId api name)).2.2 "")
            = "small molecule"
         ∧ (fetch_molecule_data api (chosenId api name)).1 ≠ none
         ∧ (fetch_molecule_data api (chosenId api name)).1 ≠ some "") := by
  unfold isSmallB
  rcases hmt : (fetch_molecule_data api (chosenId api name)).2.2 with _ | t
  · have hne : pyLower (pyOrStr none "") ≠ "small molecule" := by decide
    simp [pyTruthy, hne]
  · rcases hsm : (fetch_molecule_data api (chosenId api name)).1 with _ | s
    · simp [pyTruthy]
    · constructor
      · intro h
        simp only [Bool.and_eq_true, beq_iff_eq] at h
        obtain ⟨⟨ht, heq⟩, hs⟩ := h
        refine ⟨heq, by simp, ?_⟩
        simp only [pyTruthy, Bool.not_eq_eq_eq_not, Bool.not_true] at hs
        have : s ≠ "" := (str_isEmpty_false s).mp hs
        simp [this]
      · rintro ⟨heq, -, hne⟩
        have hs : s ≠ "" := fun h => hne (by rw [h])
        have hsb : s.isEmpty = false := (str_isEmpty_false s).mpr hs
        have htne : t ≠ "" := by
          intro h
          subst h
          exact absurd heq (by decide)
        have htb : t.isEmpty = false := (str_isEmpty_false t).mpr htne
        rw [pyOrStr, if_neg (by rw [htb]; exact Bool.false_ne_true)] at heq
        simp [pyTruthy, pyOrStr, htb, hsb, heq]

/-- C3 (amended): `no_hit` exactly when the candidate list is empty;
`no_candidate` exactly when candidates existed but no usable (truthy)
identifier was produced; with a usable identifier, `ok` exactly when the
fetched molecule type case-insensitively equals small molecule and the fetched
SMILES is non-null and non-empty, and `non_small_or_no_smiles` otherwise. -/
theorem status_assignment (api : Api) (name : String) :
    ((processName api name).1.status = "no_hit" ↔ getCandidates api name = [])
    ∧ ((processName api name).1.status = "no_candidate"
        ↔ (getCandidates api name ≠ []
           ∧ pyTruthy (choose_best_candidate api (getCandidates api name) name) = false))
    ∧ ((processName api name).1.status = "ok"
        ↔ (getCandidates api name ≠ []
           ∧ pyTruthy (choose_best_candidate api (getCandidates api name) name) = true
           ∧ pyLower (pyOrStr (fetch_molecule_data api (chosenId api name)).2.2 "")
               = "small molecule"
           ∧ (fetch_molecule_data api (chosenId api name)).1 ≠ none
           ∧ (fetch_molecule_data api (chosenId api name)).1 ≠ some ""))
    ∧ ((processName api name).1.status = "non_small_or_no_smiles"
        ↔ (getCandidates api name ≠ []
           ∧ pyTruthy (choose_best_candidate api (getCandidates api name) name) = true
           ∧ ¬(pyLower (pyOrStr (fetch_molecule_data api (chosenId api name)).2.2 "")
                 = "small molecule"
              ∧ (fetch_molecule_data api (chosenId api name)).1 ≠ none
              ∧ (fetch_molecule_data api (chosenId api name)).1 ≠ some ""))) := by
  cases hc : (getCandidates api name).isEmpty with
  | true =>
    have hce : getCandidates api name = [] := List.isEmpty_iff.mp hc
    have hst : (processName api name).1.status = "no_hit" := by
      rw [processName_no_hit api name hc]
    rw [hst]
    exact ⟨iff_of_true rfl hce,
           iff_of_false (by decide) (fun h => h.1 hce),
           iff_of_false (by decide) (fun h => h.1 hce),
           iff_of_false (by decide) (fun h => h.1 hce)⟩
  | false =>
    have hcne : getCandidates api name ≠ [] := List.isEmpty_eq_false.mp hc
    cases ht : pyTruthy (choose_best_candidate api (getCandidates api name) name) with
    | false =>
      have hst : (processName api name).1.status = "no_candidate" := by
        rw [processName_no_candidate api name hc ht]
      rw [hst]
      exact ⟨iff_of_false (by decide) (fun h => hcne h),
             iff_of_true rfl ⟨hcne, rfl⟩,
             iff_of_false (by decide) (fun h => nomatch h.2.1),
             iff_of_false (by decide) (fun h => nomatch h.2.1)⟩
    | true =>
      have hfst := processName_resolved_fst api name hc ht
      cases hs : isSmallB api name with
      | true =>
        have hr := (isSmallB_iff api name).mp hs
        have hst : (processName api name).1.status = "ok" := by
          rw [hfst]; simp [hs]
        rw [hst]
        exact ⟨iff_of_false (by decide) (fun h => hcne h),
               iff_of_false (by decide) (fun h => nomatch h.2),
               iff_of_true rfl ⟨hcne, rfl, hr.1, hr.2.1, hr.2.2⟩,
               iff_of_false (by decide) (fun h => h.2.2 ⟨hr.1, hr.2.1, hr.2.2⟩)⟩
      | false =>
        have hr : ¬(pyLower (pyOrStr (fetch_molecule_data api (chosenId api name)).2.2 "")
              = "small molecule"
            ∧ (fetch_molecule_data api (chosenId api name)).1 ≠ none
            ∧ (fetch_molecule_data api (chosenId api name)).1 ≠ some "") := by
          intro h
          rw [(isSmallB_iff api name).mpr h] at hs
          cases hs
        have hst : (processName api name).1.status = "non_small_or_no_smiles" := by
          rw [hfst]; simp [hs]
        rw [hst]
        exact ⟨iff_of_false (by decide) (fun h => hcne h),
               iff_of_false (by decide) (fun h => nomatch h.2),
               iff_of_false (by decide) (fun h => hr h.2.2),
               iff_of_true rfl ⟨hcne, rfl, hr⟩⟩

/-- Counterexample for C3 as stated: under `emptySmilesApi` the fetched
molecule type is small molecule and the fetched SMILES is non-null (it is the
empty string), yet the status is `non_small_or_no_smiles`, not `ok`; so
non-null SMILES does not suffice for `ok`. -/
theorem status_assignment_counterexample :
    (processName emptySmilesApi "Aspirin").1.status = "non_small_or_no_smiles"
    ∧ (fetch_molecule_data emptySmilesApi (chosenId emptySmilesApi "Aspirin")).1 = some ""
    ∧ pyLower (pyOrStr
        (fetch_molecule_data emptySmilesApi (chosenId emptySmilesApi "Aspirin")).2.2 "")
        = "small molecule"
    ∧ ¬((processName emptySmilesApi "Aspirin").1.status = "ok"
        ↔ (pyLower (pyOrStr
             (fetch_molecule_data emptySmilesApi (chosenId emptySmilesApi "Aspirin")).2.2 "")
             = "small molecule"
           ∧ (fetch_molecule_data emptySmilesApi (chosenId emptySmilesApi "Aspirin")).1
               ≠ none)) := by
  refine ⟨by decide, by decide, by decide, ?_⟩
  intro h
  exact absurd (h.mpr ⟨by decide, by decide⟩) (by decide)

/-- C8: a missing `Name` column is the only raised error, raised before any
name is processed; with the column present the run always completes with
output; every remote failure is degraded at its call site to no result
(all-null structure fields, empty mechanism list, or no candidate) and the
run continues. -/
theorem error_taxonomy (api : Api) (inp : InputCSV) :
    (inp.hasNameCol = false
      → runMain api inp = .error "Input CSV must contain a Name column.")
    ∧ (inp.hasNameCol = true
      → runMain api inp = .ok (runNames api (inputNames inp)))
    ∧ (∀ cid, api.getMol (some cid) = .error ()
      → fetch_molecule_data api cid = (none, none, none))
    ∧ (∀ cid, api.mechFilter cid = .error () → fetch_targets api cid = [])
    ∧ (∀ name, api.filterPref name = .error () → api.search name = .error ()
      → getCandidates api name = []) := by
  refine ⟨?_, ?_, ?_, ?_, ?_⟩
  · intro h; simp [runMain, h]
  · intro h; simp [runMain, h]
  · intro cid h; simp [fetch_molecule_data, h]
  · intro cid h; simp [fetch_targets, h]
  · intro name h1 h2
    simp [getCandidates, pref_name_exact, limited_text_search, h1, h2]

/-- Witness for C8: a missing column aborts with the error; under the failing
oracle each call site degrades to no result. -/
theorem error_taxonomy_witness :
    runMain trivApi { hasNameCol := false, nameColumn := [] }
        = .error "Input CSV must contain a Name column."
    ∧ fetch_molecule_data trivApi "CHEMBL25" = (none, none, none)
    ∧ fetch_targets trivApi "CHEMBL25" = []
    ∧ getCandidates trivApi "Aspirin" = [] :=
  ⟨(error_taxonomy trivApi { hasNameCol := false, nameColumn := [] }).1 rfl,
   (error_taxonomy trivApi { hasNameCol := false, nameColumn := [] }).2.2.1 "CHEMBL25" rfl,
   (error_taxonomy trivApi { hasNameCol := false, nameColumn := [] }).2.2.2.1 "CHEMBL25" rfl,
   (error_taxonomy trivApi { hasNameCol := false, nameColumn := [] }).2.2.2.2 "Aspirin"
     rfl rfl⟩
